import Mathlib

/-!
Shallow embedding of the batch image conversion pipeline of
`src/image_converter.py` (classes `ImageProcessor`, `ImageConverter` and the
page function `render_image_converter`), together with theorems settling the
specification claims about it.

External libraries (PIL, pillow_heif, zipfile, streamlit) are not part of the
repository; they are modelled as follows:
* PIL / pillow_heif: an abstract `PILModel` record of decode/encode primitives,
  over which all theorems are universally quantified; exceptions raised by the
  primitives are `Except` errors.
* `concurrent.futures.ThreadPoolExecutor`: `executor.map` keeps submission
  order and, when iterated, re-raises the first exception in submission order,
  so `process_images_parallel` is modelled as an order-preserving monadic map;
  `as_completed` yields results in an arbitrary completion order, modelled as
  an explicit `order : List Nat` argument (a permutation of the indices).
* `zipfile.ZipFile` (write mode, `writestr`): a simplified but injective
  serialization `zipBytes` of the written entry sequence, with the
  end-of-central-directory trailer (signature plus member count) that the real
  container always carries, even when empty.
* streamlit session state: an explicit `SessionState` record threaded through a
  pure `render` step function; `st.rerun()` after a successful conversion is
  folded into the same step (the rerun re-enters the script with the state just
  stored and unchanged widget values, so it directly reaches the results
  section).
-/

/-- Bytes are modelled as lists of naturals (each intended `< 256`). -/
abbrev Bytes := List Nat

/-- An uploaded input: a display name plus an opaque byte content
(`st.file_uploader` result element, as consumed by `ImageProcessor`). -/
structure UploadedFile where
  name : String
  content : Bytes
  deriving DecidableEq, Repr

/-- The record returned by `pillow_heif.read_heif`: pixel mode, dimensions,
raw pixel buffer and stride. -/
structure HeifFile where
  mode : String
  size : Nat × Nat
  data : Bytes
  stride : Nat
  deriving DecidableEq, Repr

/-- Model of the external imaging libraries used by `image_converter.py`.
`Img` stands for `PIL.Image.Image` values.
* `openImage` models `PIL.Image.open` on the byte stream;
* `readHeif` models `pillow_heif.read_heif`;
* `frombytes` models `PIL.Image.frombytes mode size data "raw" rawMode stride`
  (a total constructor: the arguments come from a successfully read container);
* `save` models `img.save(buffer, format=fmt)` followed by reading the buffer,
  failing exactly when the PIL save call raises. -/
structure PILModel (Img : Type) where
  openImage : Bytes → Except String Img
  readHeif : Bytes → Except String HeifFile
  frombytes : String → Nat × Nat → Bytes → String → String → Nat → Img
  save : Img → String → Except String Bytes

/-- The `ProcessedImage` dataclass: original file name plus decoded image. -/
structure ProcessedImage (Img : Type) where
  original_name : String
  image : Img
  deriving DecidableEq, Repr

/-- Python `str.lower` (the names used here are ASCII). -/
def strLower (s : String) : String := (s.toList.map Char.toLower).asString

/-- Python `str.endswith`. -/
def strEndsWith (s t : String) : Bool := t.toList.isSuffixOf s.toList

/-- Embedding of `ImageProcessor.process_heic`: read the HEIC container's metadata and
reconstruct the raster image from the raw pixel buffer via
`Image.frombytes(mode, size, data, "raw", mode, stride)`. -/
def process_heic {Img : Type} (m : PILModel Img) (file : UploadedFile) :
    Except String Img := do
  let h ← m.readHeif file.content
  pure (m.frombytes h.mode h.size h.data "raw" h.mode h.stride)

/-- Embedding of `ImageProcessor.process_image`: dispatch on the lower-cased name suffix;
`.heic` names take the specialized path, everything else goes to
`Image.open`. The `try/except` block logs and re-raises, so errors propagate
unchanged. -/
def process_image {Img : Type} (m : PILModel Img) (file : UploadedFile) :
    Except String (ProcessedImage Img) :=
  if strEndsWith (strLower file.name) ".heic" then
    (process_heic m file).map fun img => ⟨file.name, img⟩
  else
    (m.openImage file.content).map fun img => ⟨file.name, img⟩

/-- Embedding of `ImageProcessor.process_images_parallel`:
`list(executor.map(process_image, files))`. `executor.map` returns results in
submission order and re-raises the first exception in that order when the
results are iterated, so the parallel fan-out collapses to an
order-preserving monadic map. -/
def process_images_parallel {Img : Type} (m : PILModel Img) :
    List UploadedFile → Except String (List (ProcessedImage Img))
  | [] => .ok []
  | f :: fs =>
    match process_image m f with
    | .error e => .error e
    | .ok img =>
      match process_images_parallel m fs with
      | .error e => .error e
      | .ok rest => .ok (img :: rest)

/-- Split a character list at `/` separators. -/
def splitSlash (cs : List Char) : List (List Char) :=
  cs.foldr
    (fun c acc =>
      if c = '/' then [] :: acc
      else
        match acc with
        | [] => [[c]]
        | g :: gs => (c :: g) :: gs)
    [[]]

/-- Final path component, as `pathlib` computes `Path(name).name`:
the last nonempty `/`-separated component. -/
def pathFinalComponent (name : String) : List Char :=
  ((splitSlash name.toList).filter fun c => c ≠ []).getLastD []

/-- Index of the last `.` in a character list, if any. -/
def lastDotIdx (cs : List Char) : Option Nat :=
  match (cs.reverse.findIdx? fun c => c = '.') with
  | none => none
  | some r => some (cs.length - 1 - r)

/-- Python `pathlib.Path(name).stem`: the final component with its last suffix
removed; a suffix needs a dot that is neither the first nor the last
character of the component. -/
def pathStem (name : String) : String :=
  let cs := pathFinalComponent name
  match lastDotIdx cs with
  | none => cs.asString
  | some i => if 0 < i ∧ i + 1 < cs.length then ((cs.take i).asString) else cs.asString

/-- Embedding of `ImageConverter.convert_to_buffer`: serialize the image into the target
format (this is the step that can raise), then derive the archive member name
`f"{Path(original_name).stem}.{target_format.lower()}"`. -/
def convert_to_buffer {Img : Type} (m : PILModel Img)
    (processed_image : ProcessedImage Img) (target_format : String) :
    Except String (String × Bytes) := do
  let data ← m.save processed_image.image target_format
  pure (pathStem processed_image.original_name ++ "." ++ strLower target_format, data)

/-- The bytes of a string, for the zip serialization model. -/
def strBytes (s : String) : Bytes := s.toList.map Char.toNat

/-- Little-endian 4-byte encoding of a natural (mod `2^32`). -/
def u32le (n : Nat) : Bytes :=
  [n % 256, n / 256 % 256, n / 65536 % 256, n / 16777216 % 256]

/-- Model of one `zip_file.writestr(name, data)` record: local-file-header
signature `PK\x03\x04`, length-prefixed member name, length-prefixed data. -/
def localEntryBytes (e : String × Bytes) : Bytes :=
  [80, 75, 3, 4] ++ u32le (strBytes e.1).length ++ strBytes e.1 ++
    u32le e.2.length ++ e.2

/-- Model of the end-of-central-directory trailer `zipfile` always writes on
close: signature `PK\x05\x06` plus the member count. An empty archive is this
trailer alone, so its bytes are never empty. -/
def eocdBytes (n : Nat) : Bytes := [80, 75, 5, 6] ++ u32le n

/-- Model of `zip_buffer.getvalue()` for a `ZipFile` into which the given
entries were written in order: the entry records followed by the trailer. -/
def zipBytes (es : List (String × Bytes)) : Bytes :=
  (es.flatMap localEntryBytes) ++ eocdBytes es.length

/-- Read the member count out of the trailer of an archive produced by
`zipBytes`; `none` when the bytes do not end in a well-formed trailer. -/
def zipMemberCount (b : Bytes) : Option Nat :=
  match b.drop (b.length - 8) with
  | [80, 75, 5, 6, x0, x1, x2, x3] =>
      some (x0 + 256 * x1 + 65536 * x2 + 16777216 * x3)
  | _ => none

/-- Completion order: `as_completed` yields the submitted futures in completion order; the
completion order is modelled by a list of indices into the submission list
(a permutation of `List.range` on faithful runs). -/
def reorder {α : Type} (xs : List α) (order : List Nat) : List α :=
  order.filterMap fun i => xs.get? i

/-- The result of one future, as the `create_zip` collection loop sees it:
`some` entry when `convert_to_buffer` succeeded, `none` when it raised (the
`except` arm logs and drops the item). -/
def encodeOpt {Img : Type} (m : PILModel Img) (target_format : String)
    (img : ProcessedImage Img) : Option (String × Bytes) :=
  (convert_to_buffer m img target_format).toOption

/-- The entry sequence `ImageConverter.create_zip` writes into the archive:
every future's result in completion order, keeping exactly the successful
encodes (per-item failures are caught and skipped). -/
def createZipEntries {Img : Type} (m : PILModel Img)
    (processed_images : List (ProcessedImage Img)) (target_format : String)
    (order : List Nat) : List (String × Bytes) :=
  (reorder processed_images order).filterMap (encodeOpt m target_format)

/-- Embedding of `ImageConverter.create_zip`: fan the images out for encoding, collect in
completion order, write each successful entry, and return the archive bytes.
Per-item failures are swallowed by the `except` arm, so the function is
total. -/
def create_zip {Img : Type} (m : PILModel Img)
    (processed_images : List (ProcessedImage Img)) (target_format : String)
    (order : List Nat) : Bytes :=
  zipBytes (createZipEntries m processed_images target_format order)

/-- The `st.session_state` fields touched by `render_image_converter`, after the
initialization branch has run. The zip cache is the Python dict
`zip_cache : format label → archive bytes`. -/
structure SessionState (Img : Type) where
  processed_images : Option (List (ProcessedImage Img))
  last_files_processed : Option (List UploadedFile)
  last_format : Option String
  zip_cache : List (String × Bytes)
  deriving DecidableEq, Repr

/-- The freshly initialized session state (first visit to the page). -/
def initState (Img : Type) : SessionState Img := ⟨none, none, none, []⟩

/-- Python dict lookup `cache[k]` / membership `k in cache` on the model:
the most recently inserted binding of the exact key. -/
def lookupCache (c : List (String × Bytes)) (k : String) : Option Bytes :=
  (c.find? fun e => e.1 == k).map fun e => e.2

/-- Python dict assignment `cache[k] = v` on the model. -/
def insertCache (c : List (String × Bytes)) (k : String) (v : Bytes) :
    List (String × Bytes) := (k, v) :: c

/-- The `needs_processing` condition of `render_image_converter`, verbatim:
no processed batch yet, no record of the last files, a different file count,
any name mismatch position-wise, or a different target format label. -/
def needsProcessing {Img : Type} (s : SessionState Img)
    (uploaded_files : List UploadedFile) (target_format : String) : Bool :=
  s.processed_images.isNone ||
  s.last_files_processed.isNone ||
  (uploaded_files.length != (s.last_files_processed.getD []).length) ||
  ((uploaded_files.zip (s.last_files_processed.getD [])).any
      fun p => p.1.name != p.2.name) ||
  (some target_format != s.last_format)

/-- The results section of `render_image_converter` (the part guarded by
`processed_images is not None`): build the zip for the current format unless
it is cached, and offer the bytes for download. Returns the new state, the
offered bytes, and whether `create_zip` was invoked. -/
def renderResults {Img : Type} (m : PILModel Img) (s : SessionState Img)
    (target_format : String) (order : List Nat) :
    SessionState Img × Option Bytes × Bool :=
  match s.processed_images with
  | none => (s, none, false)
  | some imgs =>
    match lookupCache s.zip_cache target_format with
    | some z => (s, some z, false)
    | none =>
      let z := create_zip m imgs target_format order
      ({s with zip_cache := insertCache s.zip_cache target_format z}, some z, true)

/-- One pass of `render_image_converter` with a nonempty upload list:
when `needs_processing` holds, the decoded batch and the zip cache are reset;
if the user clicks Convert All, the batch is decoded (a decode exception
aborts the pass with the already-reset state) and, through `st.rerun()` with
the freshly stored state, the results section runs. When `needs_processing`
is false, the results section runs directly. Returns the new session state,
the bytes offered for download (if any), and whether `create_zip` ran. -/
def render {Img : Type} (m : PILModel Img) (s : SessionState Img)
    (uploaded_files : List UploadedFile) (target_format : String)
    (clicked : Bool) (order : List Nat) :
    SessionState Img × Option Bytes × Bool :=
  if needsProcessing s uploaded_files target_format then
    let s1 : SessionState Img := {s with processed_images := none, zip_cache := []}
    if clicked then
      match process_images_parallel m uploaded_files with
      | .ok imgs =>
        let s2 : SessionState Img :=
          {s1 with processed_images := some imgs,
                   last_files_processed := some uploaded_files,
                   last_format := some target_format}
        renderResults m s2 target_format order
      | .error _ => (s1, none, false)
    else (s1, none, false)
  else renderResults m s target_format order

/-- Decidable equality for `Except`, so concrete runs can be checked by
`decide`. -/
instance {ε α : Type} [DecidableEq ε] [DecidableEq α] :
    DecidableEq (Except ε α) := fun x y =>
  match x, y with
  | .ok a, .ok b =>
    if h : a = b then .isTrue (by rw [h])
    else .isFalse (by intro hc; cases hc; exact h rfl)
  | .error e, .error f =>
    if h : e = f then .isTrue (by rw [h])
    else .isFalse (by intro hc; cases hc; exact h rfl)
  | .ok _, .error _ => .isFalse (by intro hc; cases hc)
  | .error _, .ok _ => .isFalse (by intro hc; cases hc)

/-- A small concrete instantiation of the imaging libraries, used to evaluate
the theorems on concrete inputs. Images are string tags; content `[9]` is
undecodable; the tag `"badimg"` refuses to encode. -/
def toyModel : PILModel String where
  openImage b :=
    if b = [0] then .ok "imgA"
    else if b = [1] then .ok "imgB"
    else if b = [2] then .ok "badimg"
    else .error "boom"
  readHeif b :=
    if b = [9] then .error "heifboom"
    else .ok ⟨"RGB", (2, 1), b, 6⟩
  frombytes mode _ _ _ _ _ := "heic:" ++ mode
  save img fmt :=
    if img = "badimg" then .error "cannot write mode"
    else .ok (strBytes img ++ [46] ++ strBytes fmt)

/-! ## Helper lemmas -/

theorem filterMap_get?_range {α : Type} (l : List α) :
    (List.range l.length).filterMap l.get? = l := by
  induction l with
  | nil => simp
  | cons a t ih =>
    rw [List.length_cons, List.range_succ_eq_map, List.filterMap_cons]
    simp only [List.get?_cons_zero]
    rw [List.filterMap_map]
    have hc : ((a :: t).get? ∘ Nat.succ) = t.get? := by
      funext n
      simp [List.get?_cons_succ]
    rw [hc, ih]

theorem reorder_perm {α : Type} (xs : List α) (order : List Nat)
    (h : order.Perm (List.range xs.length)) : (reorder xs order).Perm xs := by
  have h1 := h.filterMap fun i => xs.get? i
  rw [show (List.filterMap (fun i => xs.get? i) (List.range xs.length)) = xs from
    filterMap_get?_range xs] at h1
  exact h1

theorem zip_self_name_mismatch_false (files : List UploadedFile) :
    ((files.zip files).any fun p => p.1.name != p.2.name) = false := by
  induction files with
  | nil => rfl
  | cons f fs ih => simp [List.zip_cons_cons, ih]

theorem zipMemberCount_append_eocd (b : Bytes) (n : Nat) :
    zipMemberCount (b ++ eocdBytes n) =
      some (n % 256 + 256 * (n / 256 % 256) + 65536 * (n / 65536 % 256) +
        16777216 * (n / 16777216 % 256)) := by
  have hlen : (b ++ eocdBytes n).length - 8 = b.length := by
    simp [eocdBytes, u32le, List.length_append]
  unfold zipMemberCount
  rw [hlen, List.drop_left]
  rfl

theorem zipMemberCount_zipBytes (es : List (String × Bytes))
    (h : es.length < 4294967296) :
    zipMemberCount (zipBytes es) = some es.length := by
  rw [zipBytes, zipMemberCount_append_eocd]
  congr 1
  omega

/-! ## Claim theorems -/

/-- C1: for every sequence of inputs that all decode successfully (here:
whenever `process_images_parallel` returns a batch), the batch's length
equals the number of inputs and its `i`-th `ProcessedImage` is the decode of
the `i`-th input, independent of any completion order (the embedding of
`executor.map` is order-preserving by the executor contract). -/
theorem decode_all_preserves_length_and_order {Img : Type} (m : PILModel Img)
    (files : List UploadedFile) (l : List (ProcessedImage Img))
    (h : process_images_parallel m files = .ok l) :
    l.length = files.length ∧
    ∀ i, i < files.length →
      ∃ f img, files.get? i = some f ∧ l.get? i = some img ∧
        process_image m f = .ok img := by
  induction files generalizing l with
  | nil =>
    cases h
    exact ⟨rfl, by intro i hi; simp at hi⟩
  | cons f fs ih =>
    simp only [process_images_parallel] at h
    cases hf : process_image m f with
    | error e => rw [hf] at h; cases h
    | ok img =>
      rw [hf] at h
      cases hr : process_images_parallel m fs with
      | error e => rw [hr] at h; cases h
      | ok rest =>
        rw [hr] at h
        cases h
        obtain ⟨ihlen, ihidx⟩ := ih rest hr
        refine ⟨by simp [ihlen], ?_⟩
        intro i hi
        cases i with
        | zero => exact ⟨f, img, rfl, rfl, hf⟩
        | succ j =>
          obtain ⟨g, im, h1, h2, h3⟩ := ihidx j (by simpa using hi)
          exact ⟨g, im, by simpa using h1, by simpa using h2, h3⟩

/-- Witness for C1 on a concrete run of the toy libraries. -/
theorem decode_all_preserves_length_and_order_witness :
    ([⟨"a.png", "imgA"⟩, ⟨"photo.HEIC", "heic:RGB"⟩] :
        List (ProcessedImage String)).length =
      ([⟨"a.png", [0]⟩, ⟨"photo.HEIC", [1]⟩] : List UploadedFile).length ∧
    ∀ i, i < ([⟨"a.png", [0]⟩, ⟨"photo.HEIC", [1]⟩] : List UploadedFile).length →
      ∃ f img,
        ([⟨"a.png", [0]⟩, ⟨"photo.HEIC", [1]⟩] : List UploadedFile).get? i = some f ∧
        ([⟨"a.png", "imgA"⟩, ⟨"photo.HEIC", "heic:RGB"⟩] :
            List (ProcessedImage String)).get? i = some img ∧
        process_image toyModel f = .ok img :=
  decode_all_preserves_length_and_order toyModel
    [⟨"a.png", [0]⟩, ⟨"photo.HEIC", [1]⟩]
    [⟨"a.png", "imgA"⟩, ⟨"photo.HEIC", "heic:RGB"⟩] (by decide)

/-- C2, as amended: a failing input makes `process_images_parallel` fail as a
whole — no list of `ProcessedImage`s is produced — and the surfaced error is
the underlying decode error of the first failing input (first by index, the
order in which `executor.map` results are consumed). -/
theorem decode_all_error_first {Img : Type} (m : PILModel Img)
    (fs1 : List UploadedFile) (f : UploadedFile) (fs2 : List UploadedFile)
    (e : String)
    (h1 : ∀ g ∈ fs1, (process_image m g).toOption.isSome = true)
    (h2 : process_image m f = .error e) :
    process_images_parallel m (fs1 ++ f :: fs2) = .error e := by
  induction fs1 with
  | nil => simp only [List.nil_append, process_images_parallel, h2]
  | cons g gs ih =>
    have hg := h1 g (by simp)
    obtain ⟨img, hgi⟩ : ∃ img, process_image m g = .ok img := by
      cases hgim : process_image m g with
      | error er => rw [hgim] at hg; simp [Except.toOption] at hg
      | ok img => exact ⟨img, rfl⟩
    simp only [List.cons_append, process_images_parallel, hgi, List.append_eq]
    rw [ih fun x hx => h1 x (by simp [hx])]

/-- Witness for the amended C2 on a concrete run of the toy libraries. -/
theorem decode_all_error_first_witness :
    process_images_parallel toyModel
      ([⟨"a.png", [0]⟩] ++ ⟨"bad.png", [9]⟩ :: [⟨"b.jpg", [1]⟩]) =
      .error "boom" :=
  decode_all_error_first toyModel [⟨"a.png", [0]⟩] ⟨"bad.png", [9]⟩
    [⟨"b.jpg", [1]⟩] "boom" (by decide) (by decide)

/-- C2 counterexample: the claim as stated also asserts that the surfaced
error references the failing input's name. The code re-raises the underlying
library exception unchanged (the name appears only in a log line), so on an
undecodable input named `bad.png` whose decode error is `boom`, the surfaced
error does not contain the input's name. -/
theorem decode_all_error_lacks_name :
    process_images_parallel toyModel [⟨"bad.png", [9]⟩] = .error "boom" ∧
    ¬ ("bad.png".toList <:+: "boom".toList) :=
  ⟨by decide, by decide⟩

/-- C7: the decoder dispatches on the case-insensitively lower-cased name
suffix. A name ending in `.heic` (any letter case) takes the specialized
container path — read the container metadata and rebuild the raster image
from the raw pixel buffer and stride via `frombytes` — while every other
name goes to the general-purpose raster decoder `Image.open`. -/
theorem process_image_suffix_dispatch {Img : Type} (m : PILModel Img)
    (f : UploadedFile) :
    (strEndsWith (strLower f.name) ".heic" = true →
      process_image m f =
        (m.readHeif f.content).map fun h =>
          ⟨f.name, m.frombytes h.mode h.size h.data "raw" h.mode h.stride⟩) ∧
    (strEndsWith (strLower f.name) ".heic" = false →
      process_image m f = (m.openImage f.content).map fun img => ⟨f.name, img⟩) := by
  constructor
  · intro h
    simp only [process_image, h, if_true]
    cases hrh : m.readHeif f.content with
    | error e => simp [process_heic, hrh, Except.map]
    | ok hf => simp [process_heic, hrh, Except.map]
  · intro h
    simp [process_image, h]

/-- Witness for C7: a `.HEIC` name is decoded through the container
metadata; a `.png` name is decoded through the general raster decoder. -/
theorem process_image_suffix_dispatch_witness :
    process_image toyModel ⟨"photo.HEIC", [3]⟩ =
      (toyModel.readHeif [3]).map (fun h =>
        ⟨"photo.HEIC", toyModel.frombytes h.mode h.size h.data "raw" h.mode h.stride⟩) ∧
    process_image toyModel ⟨"a.png", [0]⟩ =
      (toyModel.openImage [0]).map (fun img => ⟨"a.png", img⟩) :=
  ⟨(process_image_suffix_dispatch toyModel ⟨"photo.HEIC", [3]⟩).1 (by decide),
   (process_image_suffix_dispatch toyModel ⟨"a.png", [0]⟩).2 (by decide)⟩

/-- Unfolding of `encodeOpt` in terms of the save primitive and the derived member name. -/
theorem encodeOpt_eq {Img : Type} (m : PILModel Img) (fmt : String)
    (img : ProcessedImage Img) :
    encodeOpt m fmt img = (m.save img.image fmt).toOption.map
      fun d => (pathStem img.original_name ++ "." ++ strLower fmt, d) := by
  unfold encodeOpt convert_to_buffer
  cases m.save img.image fmt <;> rfl

theorem encodeOpt_isSome_elim {Img : Type} (m : PILModel Img) (fmt : String)
    (a : ProcessedImage Img) (h : (encodeOpt m fmt a).isSome = true) :
    ∃ d, m.save a.image fmt = .ok d ∧
      encodeOpt m fmt a = some (pathStem a.original_name ++ "." ++ strLower fmt, d) := by
  rw [encodeOpt_eq] at h ⊢
  cases hsave : m.save a.image fmt with
  | error e => rw [hsave] at h; simp [Except.toOption] at h
  | ok d => exact ⟨d, rfl, rfl⟩

theorem filterMap_encodeOpt_all_some {Img : Type} (m : PILModel Img)
    (fmt : String) (imgs : List (ProcessedImage Img))
    (hs : ∀ img ∈ imgs, (encodeOpt m fmt img).isSome = true) :
    (imgs.filterMap (encodeOpt m fmt)).map Prod.fst =
      imgs.map (fun img => pathStem img.original_name ++ "." ++ strLower fmt) ∧
    (imgs.filterMap (encodeOpt m fmt)).length = imgs.length := by
  induction imgs with
  | nil => exact ⟨rfl, rfl⟩
  | cons a t ih =>
    obtain ⟨d, _, hval⟩ := encodeOpt_isSome_elim m fmt a (hs a (by simp))
    obtain ⟨ih1, ih2⟩ := ih fun x hx => hs x (by simp [hx])
    rw [List.filterMap_cons_some hval]
    exact ⟨by simp [ih1], by simp [ih2]⟩

/-- C4: the archive member name strips the original name's extension and
appends the lower-cased target format, and an archive built from a batch
with no encode failures has exactly one member per image, the member names
being (up to the unconstrained completion order) exactly
`{original-stem}.{format-lowercase}` for each image. -/
theorem create_zip_member_names {Img : Type} (m : PILModel Img)
    (imgs : List (ProcessedImage Img)) (fmt : String) (order : List Nat)
    (hp : order.Perm (List.range imgs.length))
    (hs : ∀ img ∈ imgs, (encodeOpt m fmt img).isSome = true) :
    (createZipEntries m imgs fmt order).length = imgs.length ∧
    ((createZipEntries m imgs fmt order).map Prod.fst).Perm
      (imgs.map fun img => pathStem img.original_name ++ "." ++ strLower fmt) := by
  have hperm : (createZipEntries m imgs fmt order).Perm
      (imgs.filterMap (encodeOpt m fmt)) :=
    (reorder_perm imgs order hp).filterMap (encodeOpt m fmt)
  obtain ⟨h1, h2⟩ := filterMap_encodeOpt_all_some m fmt imgs hs
  exact ⟨by rw [hperm.length_eq, h2], h1 ▸ hperm.map Prod.fst⟩

/-- Witness for C4: `photo.HEIC` converted to `PNG` yields member name
`photo.png`; two images, two members. -/
theorem create_zip_member_names_witness :
    (createZipEntries toyModel
        [⟨"photo.HEIC", "heic:RGB"⟩, ⟨"a.png", "imgA"⟩] "PNG" [1, 0]).length =
      ([⟨"photo.HEIC", "heic:RGB"⟩, ⟨"a.png", "imgA"⟩] :
        List (ProcessedImage String)).length ∧
    ((createZipEntries toyModel
        [⟨"photo.HEIC", "heic:RGB"⟩, ⟨"a.png", "imgA"⟩] "PNG" [1, 0]).map
          Prod.fst).Perm
      (([⟨"photo.HEIC", "heic:RGB"⟩, ⟨"a.png", "imgA"⟩] :
        List (ProcessedImage String)).map
          fun img => pathStem img.original_name ++ "." ++ strLower "PNG") :=
  create_zip_member_names toyModel
    [⟨"photo.HEIC", "heic:RGB"⟩, ⟨"a.png", "imgA"⟩] "PNG" [1, 0]
    (by decide) (by decide)

/-- C9: the encoder and archive builder do not de-duplicate colliding member
names: every successfully encoded item is written, so each member name
occurs among the written entries exactly as often as items map to it — two
inputs sharing a stem yield two entries with the same name. -/
theorem create_zip_keeps_name_collisions {Img : Type} (m : PILModel Img)
    (imgs : List (ProcessedImage Img)) (fmt : String) (order : List Nat)
    (hp : order.Perm (List.range imgs.length))
    (hs : ∀ img ∈ imgs, (encodeOpt m fmt img).isSome = true) :
    ∀ nm : String,
      ((createZipEntries m imgs fmt order).map Prod.fst).count nm =
        ((imgs.map fun img =>
          pathStem img.original_name ++ "." ++ strLower fmt).count nm) := by
  intro nm
  have hperm : (createZipEntries m imgs fmt order).Perm
      (imgs.filterMap (encodeOpt m fmt)) :=
    (reorder_perm imgs order hp).filterMap (encodeOpt m fmt)
  obtain ⟨h1, _⟩ := filterMap_encodeOpt_all_some m fmt imgs hs
  exact (h1 ▸ hperm.map Prod.fst).count_eq nm

/-- Witness for C9: inputs `a.png` and `a.jpg` both map to member name
`a.webp`, which is written twice, not de-duplicated. -/
theorem create_zip_keeps_name_collisions_witness :
    ((createZipEntries toyModel
        [⟨"a.png", "imgA"⟩, ⟨"a.jpg", "imgB"⟩] "WebP" [0, 1]).map
          Prod.fst).count "a.webp" =
      (([⟨"a.png", "imgA"⟩, ⟨"a.jpg", "imgB"⟩] :
        List (ProcessedImage String)).map
          fun img => pathStem img.original_name ++ "." ++ strLower "WebP").count
        "a.webp" ∧
    ((createZipEntries toyModel
        [⟨"a.png", "imgA"⟩, ⟨"a.jpg", "imgB"⟩] "WebP" [0, 1]).map
          Prod.fst).count "a.webp" = 2 :=
  ⟨create_zip_keeps_name_collisions toyModel
      [⟨"a.png", "imgA"⟩, ⟨"a.jpg", "imgB"⟩] "WebP" [0, 1]
      (by decide) (by decide) "a.webp",
   by decide⟩

/-- C3: `create_zip` is total — a per-item encode failure is caught in the
collection loop and only that item is omitted. The written entries are (up
to the unconstrained completion order) exactly the successful encodes, the
returned bytes are the serialization of those entries, and the archive
trailer counts exactly them. -/
theorem create_zip_skips_failed_items {Img : Type} (m : PILModel Img)
    (imgs : List (ProcessedImage Img)) (fmt : String) (order : List Nat)
    (hp : order.Perm (List.range imgs.length))
    (hn : imgs.length < 4294967296) :
    (createZipEntries m imgs fmt order).Perm
      (imgs.filterMap (encodeOpt m fmt)) ∧
    create_zip m imgs fmt order =
      zipBytes (createZipEntries m imgs fmt order) ∧
    zipMemberCount (create_zip m imgs fmt order) =
      some (createZipEntries m imgs fmt order).length := by
  have hperm : (createZipEntries m imgs fmt order).Perm
      (imgs.filterMap (encodeOpt m fmt)) :=
    (reorder_perm imgs order hp).filterMap (encodeOpt m fmt)
  refine ⟨hperm, rfl, zipMemberCount_zipBytes _ ?_⟩
  have h1 := hperm.length_eq
  have h2 := List.length_filterMap_le (encodeOpt m fmt) imgs
  omega

/-- Witness for C3: of two images, `badimg` fails to encode; the archive
still gets built and holds exactly the one successful entry. -/
theorem create_zip_skips_failed_items_witness :
    ((createZipEntries toyModel
        [⟨"a.png", "imgA"⟩, ⟨"c.webp", "badimg"⟩] "PNG" [1, 0]).Perm
      ([⟨"a.png", "imgA"⟩, ⟨"c.webp", "badimg"⟩].filterMap
        (encodeOpt toyModel "PNG")) ∧
     create_zip toyModel [⟨"a.png", "imgA"⟩, ⟨"c.webp", "badimg"⟩] "PNG" [1, 0] =
      zipBytes (createZipEntries toyModel
        [⟨"a.png", "imgA"⟩, ⟨"c.webp", "badimg"⟩] "PNG" [1, 0]) ∧
     zipMemberCount (create_zip toyModel
        [⟨"a.png", "imgA"⟩, ⟨"c.webp", "badimg"⟩] "PNG" [1, 0]) =
      some (createZipEntries toyModel
        [⟨"a.png", "imgA"⟩, ⟨"c.webp", "badimg"⟩] "PNG" [1, 0]).length) ∧
    createZipEntries toyModel
        [⟨"a.png", "imgA"⟩, ⟨"c.webp", "badimg"⟩] "PNG" [1, 0] =
      [("a.png", strBytes "imgA" ++ [46] ++ strBytes "PNG")] :=
  ⟨create_zip_skips_failed_items toyModel
      [⟨"a.png", "imgA"⟩, ⟨"c.webp", "badimg"⟩] "PNG" [1, 0]
      (by decide) (by decide),
   by decide⟩

/-- C10: on an empty batch, `create_zip` succeeds and returns the non-empty
bytes of a well-formed archive whose trailer records zero members. -/
theorem create_zip_empty_batch {Img : Type} (m : PILModel Img) (fmt : String)
    (order : List Nat) :
    create_zip m [] fmt order = zipBytes [] ∧
    zipMemberCount (create_zip m [] fmt order) = some 0 ∧
    create_zip m [] fmt order ≠ [] := by
  have hent : createZipEntries m ([] : List (ProcessedImage Img)) fmt order = [] := by
    unfold createZipEntries reorder
    induction order with
    | nil => rfl
    | cons i t ih => simp
  refine ⟨by rw [create_zip, hent], ?_, ?_⟩
  · rw [create_zip, hent]
    decide
  · rw [create_zip, hent]
    decide

/-- A render pass that needs processing and is clicked, with a successful
decode, ends in a fully determined state: the freshly decoded batch, the
current files and format recorded, and a cache holding exactly the newly
built archive. -/
theorem render_fresh_convert {Img : Type} (m : PILModel Img)
    (s : SessionState Img) (files : List UploadedFile) (fmt : String)
    (order : List Nat) (imgs : List (ProcessedImage Img))
    (hok : process_images_parallel m files = .ok imgs)
    (hneeds : needsProcessing s files fmt = true) :
    render m s files fmt true order =
      (⟨some imgs, some files, some fmt,
        [(fmt, create_zip m imgs fmt order)]⟩,
       some (create_zip m imgs fmt order), true) := by
  unfold render
  rw [hneeds]
  simp only [if_true, hok]
  unfold renderResults
  simp [lookupCache, insertCache]

/-- After a conversion stored the current files and format, `needs_processing`
is false for the same files and format. -/
theorem needsProcessing_stored_false {Img : Type}
    (imgs : List (ProcessedImage Img)) (files : List UploadedFile)
    (fmt : String) (cache : List (String × Bytes)) :
    needsProcessing (⟨some imgs, some files, some fmt, cache⟩ : SessionState Img)
      files fmt = false := by
  simp [needsProcessing, zip_self_name_mismatch_false files]

/-- A render pass over a stored state whose cache holds the requested format
returns the cached bytes unchanged without rebuilding. -/
theorem render_second_cached {Img : Type} (m : PILModel Img)
    (imgs : List (ProcessedImage Img)) (files : List UploadedFile)
    (fmt : String) (z : Bytes) (clicked : Bool) (order : List Nat) :
    render m (⟨some imgs, some files, some fmt, [(fmt, z)]⟩ : SessionState Img)
        files fmt clicked order =
      (⟨some imgs, some files, some fmt, [(fmt, z)]⟩, some z, false) := by
  unfold render
  rw [needsProcessing_stored_false]
  simp [renderResults, lookupCache]

/-- A label different from the stored one makes `needs_processing` true. -/
theorem needsProcessing_format_change {Img : Type} (s : SessionState Img)
    (files : List UploadedFile) (fmt fmt2 : String)
    (hlast : s.last_format = some fmt) (hne : fmt2 ≠ fmt) :
    needsProcessing s files fmt2 = true := by
  unfold needsProcessing
  have h : (some fmt2 != s.last_format) = true := by
    rw [hlast]
    simp only [bne_iff_ne, ne_eq, Option.some.injEq]
    exact hne
  simp [h]

/-- A render pass that needs processing but is not clicked resets the batch
and the whole cache and offers nothing for download. -/
theorem render_fresh_not_clicked {Img : Type} (m : PILModel Img)
    (s : SessionState Img) (files : List UploadedFile) (fmt : String)
    (order : List Nat) (hneeds : needsProcessing s files fmt = true) :
    render m s files fmt false order =
      ({s with processed_images := none, zip_cache := []}, none, false) := by
  unfold render
  rw [hneeds]
  simp

/-- C5: requesting the same target format twice for the same decoded batch
performs exactly one encode pass. The first render (conversion clicked)
invokes `create_zip` once and caches the archive; a second render with the
same files and format does not invoke the builder again and offers the
byte-for-byte identical cached archive. -/
theorem second_request_hits_cache {Img : Type} (m : PILModel Img)
    (s : SessionState Img) (files : List UploadedFile) (fmt : String)
    (order order2 : List Nat) (clicked : Bool)
    (imgs : List (ProcessedImage Img))
    (hok : process_images_parallel m files = .ok imgs)
    (hneeds : needsProcessing s files fmt = true) :
    (render m s files fmt true order).2.2 = true ∧
    (render m s files fmt true order).2.1 = some (create_zip m imgs fmt order) ∧
    render m (render m s files fmt true order).1 files fmt clicked order2 =
      ((render m s files fmt true order).1,
       (render m s files fmt true order).2.1, false) := by
  rw [render_fresh_convert m s files fmt order imgs hok hneeds]
  exact ⟨rfl, rfl, render_second_cached m imgs files fmt _ clicked order2⟩

/-- Witness for C5 on a concrete run of the toy libraries. -/
theorem second_request_hits_cache_witness :
    (render toyModel (initState String) [⟨"a.png", [0]⟩] "PNG" true [0]).2.2 =
      true ∧
    (render toyModel (initState String) [⟨"a.png", [0]⟩] "PNG" true [0]).2.1 =
      some (create_zip toyModel [⟨"a.png", "imgA"⟩] "PNG" [0]) ∧
    render toyModel
        (render toyModel (initState String) [⟨"a.png", [0]⟩] "PNG" true [0]).1
        [⟨"a.png", [0]⟩] "PNG" false [0] =
      ((render toyModel (initState String) [⟨"a.png", [0]⟩] "PNG" true [0]).1,
       (render toyModel (initState String) [⟨"a.png", [0]⟩] "PNG" true [0]).2.1,
       false) :=
  second_request_hits_cache toyModel (initState String) [⟨"a.png", [0]⟩] "PNG"
    [0] [0] false [⟨"a.png", "imgA"⟩] (by decide) (by decide)

/-- C6 counterexample: with one input `a.png`, convert to `WebP` (archive
cached under "WebP"), then request `PNG`. The claim says the "WebP" cache
entry is neither discarded nor mutated and stays retrievable; in the code the
format change makes `needs_processing` true, which resets `zip_cache` to the
empty dict, so the "WebP" entry is gone. -/
theorem format_change_drops_cached_archive :
    (lookupCache ((render toyModel (initState String) [⟨"a.png", [0]⟩] "WebP"
        true [0]).1).zip_cache "WebP").isSome = true ∧
    lookupCache ((render toyModel
        ((render toyModel (initState String) [⟨"a.png", [0]⟩] "WebP" true [0]).1)
        [⟨"a.png", [0]⟩] "PNG" true [0]).1).zip_cache "WebP" = none :=
  ⟨by decide, by decide⟩

/-- C6 as amended: requesting a different target format after an archive has
been cached clears the conversion cache in full (the previous entry is
discarded, not retained) and resets the decoded batch; once conversion is
clicked again, a new independent archive for the new format is built freshly
and becomes the sole cache entry. The cache is reset whenever the input set
or the target format changes — never partially per key. -/
theorem format_change_clears_cache {Img : Type} (m : PILModel Img)
    (s : SessionState Img) (files : List UploadedFile) (fmt fmt2 : String)
    (order : List Nat) (imgs : List (ProcessedImage Img))
    (hlast : s.last_format = some fmt) (hne : fmt2 ≠ fmt)
    (hok : process_images_parallel m files = .ok imgs) :
    (render m s files fmt2 false order).1.zip_cache = [] ∧
    (render m s files fmt2 false order).2.1 = none ∧
    (render m s files fmt2 true order).1.zip_cache =
      [(fmt2, create_zip m imgs fmt2 order)] ∧
    (render m s files fmt2 true order).2.2 = true ∧
    lookupCache (render m s files fmt2 true order).1.zip_cache fmt = none := by
  have hneeds := needsProcessing_format_change s files fmt fmt2 hlast hne
  rw [render_fresh_not_clicked m s files fmt2 order hneeds,
    render_fresh_convert m s files fmt2 order imgs hok hneeds]
  refine ⟨rfl, rfl, rfl, rfl, ?_⟩
  have hbeq : (fmt2 == fmt) = false := by
    simp only [beq_eq_false_iff_ne, ne_eq]
    exact hne
  simp [lookupCache, List.find?, hbeq]

/-- Witness for the amended C6 on a concrete run of the toy libraries. -/
theorem format_change_clears_cache_witness :
    (render toyModel
        (⟨some [⟨"a.png", "imgA"⟩], some [⟨"a.png", [0]⟩], some "WebP",
          [("WebP", create_zip toyModel [⟨"a.png", "imgA"⟩] "WebP" [0])]⟩ :
          SessionState String)
        [⟨"a.png", [0]⟩] "PNG" false [0]).1.zip_cache = [] ∧
    (render toyModel
        (⟨some [⟨"a.png", "imgA"⟩], some [⟨"a.png", [0]⟩], some "WebP",
          [("WebP", create_zip toyModel [⟨"a.png", "imgA"⟩] "WebP" [0])]⟩ :
          SessionState String)
        [⟨"a.png", [0]⟩] "PNG" false [0]).2.1 = none ∧
    (render toyModel
        (⟨some [⟨"a.png", "imgA"⟩], some [⟨"a.png", [0]⟩], some "WebP",
          [("WebP", create_zip toyModel [⟨"a.png", "imgA"⟩] "WebP" [0])]⟩ :
          SessionState String)
        [⟨"a.png", [0]⟩] "PNG" true [0]).1.zip_cache =
      [("PNG", create_zip toyModel [⟨"a.png", "imgA"⟩] "PNG" [0])] ∧
    (render toyModel
        (⟨some [⟨"a.png", "imgA"⟩], some [⟨"a.png", [0]⟩], some "WebP",
          [("WebP", create_zip toyModel [⟨"a.png", "imgA"⟩] "WebP" [0])]⟩ :
          SessionState String)
        [⟨"a.png", [0]⟩] "PNG" true [0]).2.2 = true ∧
    lookupCache
      (render toyModel
        (⟨some [⟨"a.png", "imgA"⟩], some [⟨"a.png", [0]⟩], some "WebP",
          [("WebP", create_zip toyModel [⟨"a.png", "imgA"⟩] "WebP" [0])]⟩ :
          SessionState String)
        [⟨"a.png", [0]⟩] "PNG" true [0]).1.zip_cache "WebP" = none :=
  format_change_clears_cache toyModel _ [⟨"a.png", [0]⟩] "WebP" "PNG" [0]
    [⟨"a.png", "imgA"⟩] rfl (by decide) (by decide)

/-- C8 counterexample: the conversion cache does not normalize the format
label. A pass caching the archive under "WebP" leaves a cache in which the
lookup of "webp" misses while "WebP" hits, and a follow-up request for
"webp" re-invokes the builder instead of hitting the same entry. -/
theorem cache_key_not_normalized :
    (lookupCache ((render toyModel (initState String) [⟨"a.png", [0]⟩] "WebP"
        true [0]).1).zip_cache "WebP").isSome = true ∧
    lookupCache ((render toyModel (initState String) [⟨"a.png", [0]⟩] "WebP"
        true [0]).1).zip_cache "webp" = none ∧
    (render toyModel
        ((render toyModel (initState String) [⟨"a.png", [0]⟩] "WebP" true [0]).1)
        [⟨"a.png", [0]⟩] "webp" true [0]).2.2 = true :=
  ⟨by decide, by decide, by decide⟩

/-- C8 as amended: the cache key is the verbatim target-format label — the
results section looks the label up as-is and stores the built archive under
it as-is, so any differently spelled label (including a case variant) does
not hit the entry just inserted. (The UI offers only the fixed labels PNG,
JPEG and WebP, so case variants of one label do not arise there.) -/
theorem cache_key_verbatim {Img : Type} (m : PILModel Img)
    (s : SessionState Img) (fmt fmt2 : String) (order : List Nat)
    (imgs : List (ProcessedImage Img))
    (himgs : s.processed_images = some imgs)
    (hmiss : lookupCache s.zip_cache fmt = none)
    (hne : fmt2 ≠ fmt) :
    (renderResults m s fmt order).1.zip_cache =
      insertCache s.zip_cache fmt (create_zip m imgs fmt order) ∧
    (renderResults m s fmt order).2.2 = true ∧
    lookupCache
        (insertCache s.zip_cache fmt (create_zip m imgs fmt order)) fmt2 =
      lookupCache s.zip_cache fmt2 := by
  refine ⟨?_, ?_, ?_⟩
  · unfold renderResults
    rw [himgs, hmiss]
  · unfold renderResults
    rw [himgs, hmiss]
  · have hbeq : (fmt == fmt2) = false := by
      simp only [beq_eq_false_iff_ne, ne_eq]
      exact fun hc => hne hc.symm
    simp [lookupCache, insertCache, List.find?, hbeq]

/-- Witness for the amended C8: inserting under "PNG" and looking up "png". -/
theorem cache_key_verbatim_witness :
    (renderResults toyModel
        (⟨some [⟨"a.png", "imgA"⟩], some [⟨"a.png", [0]⟩], some "PNG", []⟩ :
          SessionState String) "PNG" [0]).1.zip_cache =
      insertCache [] "PNG" (create_zip toyModel [⟨"a.png", "imgA"⟩] "PNG" [0]) ∧
    (renderResults toyModel
        (⟨some [⟨"a.png", "imgA"⟩], some [⟨"a.png", [0]⟩], some "PNG", []⟩ :
          SessionState String) "PNG" [0]).2.2 = true ∧
    lookupCache
        (insertCache [] "PNG" (create_zip toyModel [⟨"a.png", "imgA"⟩] "PNG" [0]))
        "png" =
      lookupCache [] "png" :=
  cache_key_verbatim toyModel _ "PNG" "png" [0] [⟨"a.png", "imgA"⟩] rfl rfl
    (by decide)
